import Mathlib

/-!
Verification of the session-persistence and license/API layer of the
RagAIChatbot frontend (src/services/chatStorage.ts, src/services/license.ts,
src/services/api.ts).

The TypeScript code is shallowly embedded as follows.

* `Json` models a parsed JSON document (the output of `JSON.parse` /
  the input of `JSON.stringify`).
* `JsValue` models a runtime JavaScript value: it extends `Json` with
  `undef` (the `undefined` value, e.g. a missing property) and `date`
  (a `Date` object holding either a millisecond count or, when the
  payload is `none`, an Invalid Date).
* Browser `localStorage` under the session key is modelled by
  `Store := Option (Option Json)`: `none` means the key is absent,
  `some none` means a string is present but is not parseable JSON
  (so `JSON.parse` throws), and `some (some j)` means the stored
  string parses to `j`.
* JavaScript exceptions are modelled with `Except Unit`; a `try/catch`
  is a `match` on the `Except` result.
* `Date` serialization: JavaScript serializes a `Date` as an ISO-8601
  string and re-parses it with `new Date`; both directions form an
  injective encoding of the instant with parse-after-print the identity.
  We model this by serializing the millisecond count as a JSON number
  (`new Date(n)` accepts numbers as well); none of the verified claims
  depends on the textual format of a serialized date, only on the
  round-trip identity.  `new Date(x)` on fractional numbers truncates
  toward zero, on `null`/`true`/`false` yields 0/1/0 milliseconds, and
  on other non-numeric junk is modelled as an Invalid Date.
-/

/-- A parsed JSON document. -/
inductive Json where
  | null : Json
  | bool (b : Bool) : Json
  | num (q : Rat) : Json
  | str (s : String) : Json
  | arr (elems : List Json) : Json
  | obj (fields : List (String × Json)) : Json

/-- A runtime JavaScript value: JSON values plus `undefined` and `Date`
objects.  A `date none` is an Invalid Date (its time value is NaN). -/
inductive JsValue where
  | undefined : JsValue
  | null : JsValue
  | bool (b : Bool) : JsValue
  | num (q : Rat) : JsValue
  | str (s : String) : JsValue
  | date (t : Option Int) : JsValue
  | arr (elems : List JsValue) : JsValue
  | obj (fields : List (String × JsValue)) : JsValue

/-- Reading a property of an object: first binding wins.  Objects built by
`JSON.parse` or by object literals never carry duplicate keys, so the
first-vs-last distinction is immaterial on reachable values. -/
def getField (k : String) : List (String × JsValue) → JsValue
  | [] => .undefined
  | (k', v) :: fs => if k' == k then v else getField k fs

/-- Property read `v[k]`: `undefined` on every non-object (none of the
property names used by the code exists on primitives, arrays or dates). -/
def getProp (v : JsValue) (k : String) : JsValue :=
  match v with
  | .obj fs => getField k fs
  | _ => .undefined

/-- Property write with JavaScript object semantics: an existing key keeps
its position and receives the new value, a new key is appended. -/
def upsertField (k : String) (x : JsValue) : List (String × JsValue) → List (String × JsValue)
  | [] => [(k, x)]
  | (k', v) :: fs =>
    if k' == k then (k, x) :: fs
    else (k', v) :: upsertField k x fs

/-- Property assignment `v[k] = x`.  On a non-object this is a silent
no-op (the code only assigns to values already known to be objects). -/
def setProp (v : JsValue) (k : String) (x : JsValue) : JsValue :=
  match v with
  | .obj fs => .obj (upsertField k x fs)
  | other => other

/-- Fields contributed by a spread `{...v}`: an object's own fields, an
array's or string's indexed elements, nothing for primitives. -/
def spreadFields : JsValue → List (String × JsValue)
  | .obj fs => fs
  | .arr l => (l.enum).map (fun p => (toString p.1, p.2))
  | .str s => (s.data.enum).map (fun p => (toString p.1, JsValue.str (String.mk [p.2])))
  | _ => []

/-- Spread-merge `{...base, ...patch}` on field lists. -/
def mergeFields (base patch : List (String × JsValue)) : List (String × JsValue) :=
  patch.foldl (fun acc p => upsertField p.1 p.2 acc) base

/-- JavaScript truthiness. -/
def jsTruthy : JsValue → Bool
  | .undefined => false
  | .null => false
  | .bool b => b
  | .num q => !(q == 0)
  | .str s => !(s == "")
  | _ => true

mutual

/-- Embeds a parsed JSON document into the runtime value space. -/
def jsonToJsValue : Json → JsValue
  | .null => .null
  | .bool b => .bool b
  | .num q => .num q
  | .str s => .str s
  | .arr l => .arr (jsonToJsValueList l)
  | .obj fs => .obj (jsonToJsValueFields fs)

def jsonToJsValueList : List Json → List JsValue
  | [] => []
  | v :: vs => jsonToJsValue v :: jsonToJsValueList vs

def jsonToJsValueFields : List (String × Json) → List (String × JsValue)
  | [] => []
  | (k, v) :: fs => (k, jsonToJsValue v) :: jsonToJsValueFields fs

end

mutual

/-- Models `JSON.stringify` on a runtime value (as the JSON document the
produced text denotes): dates serialize to their time value (`none`, an
Invalid Date, serializes to `null` as `Date.prototype.toJSON` does),
`undefined` array elements become `null`, `undefined` object fields are
dropped.  A top-level `undefined` does not occur in the code. -/
def stringify : JsValue → Json
  | .undefined => .null
  | .null => .null
  | .bool b => .bool b
  | .num q => .num q
  | .str s => .str s
  | .date (some t) => .num (t : Rat)
  | .date none => .null
  | .arr l => .arr (stringifyList l)
  | .obj fs => .obj (stringifyFields fs)

def stringifyList : List JsValue → List Json
  | [] => []
  | v :: vs => stringify v :: stringifyList vs

def stringifyFields : List (String × JsValue) → List (String × Json)
  | [] => []
  | (k, v) :: fs =>
    match v with
    | .undefined => stringifyFields fs
    | v => (k, stringify v) :: stringifyFields fs

end

/-- Models `new Date(v)` as usable by the decoder: numbers are truncated
toward zero, `null`/booleans coerce to 0/1, an existing `Date` is copied,
everything else (including the strings produced by our abstract date
encoding only through the numeric branch) is an Invalid Date. -/
def dateFromValue : JsValue → Option Int
  | .num q => some (q.num.tdiv (q.den : Int))
  | .date t => t
  | .null => some 0
  | .bool b => some (if b then 1 else 0)
  | _ => none

/-! ## `ChatStorageService.generateId`

`generateId()` returns `Date.now().toString(36) + Math.random().toString(36).substr(2)`.
We model the current time in milliseconds as a `Nat` and the random part —
the base-36 fractional expansion of the `Math.random()` draw with the
leading `0.` removed — as an abstract list of characters (`[]` arises from
a draw of `0`, `['i']` from a draw of `0.5`, and so on). -/

/-- Base-36 digit character, as produced by `Number.prototype.toString(36)`. -/
def digitChar36 (d : Nat) : Char :=
  if d < 10 then Char.ofNat (48 + d) else Char.ofNat (87 + d)

/-- Little-endian base-36 digit characters of `n`, with explicit fuel so the
definition reduces by evaluation; `[]` for `n = 0`. -/
def toBase36Aux : Nat → Nat → List Char
  | 0, _ => []
  | _, 0 => []
  | fuel + 1, n + 1 => digitChar36 ((n + 1) % 36) :: toBase36Aux fuel ((n + 1) / 36)

/-- Models `n.toString(36)` for a natural number `n`, as a character list. -/
def toBase36 (n : Nat) : List Char :=
  if n = 0 then ['0'] else (toBase36Aux n n).reverse

/-- Models `ChatStorageService.generateId` at clock reading `nowMs` and
random suffix `rand`. -/
def generateId (nowMs : Nat) (rand : List Char) : String :=
  String.mk (toBase36 nowMs ++ rand)

/-! ## Reading the stored collection (`getSessions`) -/

/-- Browser `localStorage` under the `rag_chat_sessions` key: `none` when the
key is absent, `some none` when the stored string is not parseable JSON, and
`some (some j)` when it parses to the document `j`. -/
abbrev Store := Option (Option Json)

/-- Models the arrow body of `session.messages.map(msg => ({...msg,
timestamp: new Date(msg.timestamp)}))`; reading `msg.timestamp` throws on a
`null` element. -/
def transformMsg : JsValue → Except Unit JsValue
  | .null => .error ()
  | .undefined => .error ()
  | m => .ok (.obj (upsertField "timestamp" (.date (dateFromValue (getProp m "timestamp"))) (spreadFields m)))

/-- Left-to-right `Array.prototype.map` over the message list; the first
throw propagates. -/
def transformMsgList : List JsValue → Except Unit (List JsValue)
  | [] => .ok []
  | m :: ms =>
    match transformMsg m with
    | .error e => .error e
    | .ok m' =>
      match transformMsgList ms with
      | .error e => .error e
      | .ok ms' => .ok (m' :: ms')

/-- Models the arrow body of `sessions.map(session => ({...session,
createdAt: new Date(...), updatedAt: new Date(...), messages: ...}))`.
Reading a property of `null` throws, and `.map` on a non-array `messages`
throws. -/
def transformSession : JsValue → Except Unit JsValue
  | .null => .error ()
  | .undefined => .error ()
  | s =>
    match getProp s "messages" with
    | .arr msgs =>
      match transformMsgList msgs with
      | .error e => .error e
      | .ok msgs' =>
        .ok (.obj (upsertField "messages" (.arr msgs')
          (upsertField "updatedAt" (.date (dateFromValue (getProp s "updatedAt")))
            (upsertField "createdAt" (.date (dateFromValue (getProp s "createdAt")))
              (spreadFields s)))))
    | _ => .error ()

/-- Left-to-right map over the parsed session array. -/
def transformSessionList : List JsValue → Except Unit (List JsValue)
  | [] => .ok []
  | s :: ss =>
    match transformSession s with
    | .error e => .error e
    | .ok s' =>
      match transformSessionList ss with
      | .error e => .error e
      | .ok ss' => .ok (s' :: ss')

/-- Models `sessions.map(...)` applied to the parsed document: `.map` throws
unless the document is an array. -/
def decodeSessions (j : Json) : Except Unit (List JsValue) :=
  match jsonToJsValue j with
  | .arr l => transformSessionList l
  | _ => .error ()

/-- The body of the `try` block of `getSessions`: absent key returns `[]`,
an unparseable string throws at `JSON.parse`, and a parsed document is
decoded (which may throw). -/
def getSessionsE : Store → Except Unit (List JsValue)
  | none => .ok []
  | some none => .error ()
  | some (some j) => decodeSessions j

/-- Models `ChatStorageService.getSessions`: the surrounding `catch` turns
every throw into the empty list. -/
def getSessions (st : Store) : List JsValue :=
  match getSessionsE st with
  | .ok l => l
  | .error _ => []

/-- Models `ChatStorageService.saveSessions`: the collection is serialized
and written under the storage key.  A write failure is logged and swallowed
by the code; the claims under verification do not depend on a failed write,
so the model assumes the write lands. -/
def saveSessions (sessions : List JsValue) : Store :=
  some (some (stringify (.arr sessions)))

/-! ## Mutating operations -/

/-- Models `ChatStorageService.createSession(name, settings)` at clock
reading `nowMs` with random suffix `rand`; returns the new session and the
updated store. -/
def createSession (name : String) (settings : JsValue) (nowMs : Nat) (rand : List Char)
    (st : Store) : JsValue × Store :=
  let newSession : JsValue := .obj
    [("id", .str (generateId nowMs rand)),
     ("name", .str name),
     ("messages", .arr []),
     ("createdAt", .date (some (nowMs : Int))),
     ("updatedAt", .date (some (nowMs : Int))),
     ("settings", settings)]
  let sessions := newSession :: getSessions st
  let sessions := if 50 < sessions.length then sessions.take 50 else sessions
  (newSession, saveSessions sessions)

/-- Models `findIndex(s => s.id === sessionId)`'s predicate: strict equality
of `s.id` against the given string. -/
def idMatches (sid : String) (s : JsValue) : Bool :=
  match getProp s "id" with
  | .str t => t == sid
  | _ => false

/-- `findIndex` followed by an in-place update of the found element:
`none` models a `-1` index. -/
def updateFirstJs (p : JsValue → Bool) (f : JsValue → JsValue) :
    List JsValue → Option (List JsValue)
  | [] => none
  | s :: rest =>
    if p s then some (f s :: rest)
    else
      match updateFirstJs p f rest with
      | none => none
      | some rest' => some (s :: rest')

/-- Models `ChatStorageService.updateSessionName`. -/
def updateSessionName (sid name : String) (nowMs : Nat) (st : Store) : Bool × Store :=
  match updateFirstJs (idMatches sid)
      (fun s => setProp (setProp s "name" (.str name)) "updatedAt" (.date (some (nowMs : Int))))
      (getSessions st) with
  | none => (false, st)
  | some l => (true, saveSessions l)

/-- Finds the first session with the given id and pushes `newMsg` onto its
`messages` array, also refreshing `updatedAt`; throws (`.error`) if that
session's `messages` is not an array (`push` on a non-array), which cannot
happen for a decoded session. -/
def addMsgFirst (sid : String) (newMsg : JsValue) (nowMs : Nat) :
    List JsValue → Except Unit (Option (List JsValue))
  | [] => .ok none
  | s :: rest =>
    if idMatches sid s then
      match getProp s "messages" with
      | .arr msgs =>
        .ok (some (setProp (setProp s "messages" (.arr (msgs ++ [newMsg])))
          "updatedAt" (.date (some (nowMs : Int))) :: rest))
      | _ => .error ()
    else
      match addMsgFirst sid newMsg nowMs rest with
      | .error e => .error e
      | .ok none => .ok none
      | .ok (some rest') => .ok (some (s :: rest'))

/-- Models `ChatStorageService.addMessage(sessionId, message)` at clock
reading `nowMs` with random suffix `rand`: `ok (none, st)` is the `null`
not-found return with the store untouched. -/
def addMessage (sid : String) (msgIn : JsValue) (nowMs : Nat) (rand : List Char)
    (st : Store) : Except Unit (Option JsValue × Store) :=
  let newMsg : JsValue := .obj
    (upsertField "timestamp" (.date (some (nowMs : Int)))
      (upsertField "id" (.str (generateId nowMs rand))
        (spreadFields msgIn)))
  match addMsgFirst sid newMsg nowMs (getSessions st) with
  | .error e => .error e
  | .ok none => .ok (none, st)
  | .ok (some l) => .ok (some newMsg, saveSessions l)

/-- Models `ChatStorageService.updateSessionSettings(sessionId, settings)`:
the partial settings object is spread over the existing settings. -/
def updateSessionSettings (sid : String) (patch : JsValue) (nowMs : Nat)
    (st : Store) : Bool × Store :=
  match updateFirstJs (idMatches sid)
      (fun s =>
        setProp
          (setProp s "settings" (.obj (mergeFields (spreadFields (getProp s "settings")) (spreadFields patch))))
          "updatedAt" (.date (some (nowMs : Int))))
      (getSessions st) with
  | none => (false, st)
  | some l => (true, saveSessions l)

/-! ## Validation, import, export -/

/-- Models `['hybrid', 'semantic', 'keyword'].includes(x)`: `includes` uses
strict equality, so only an equal string matches. -/
def searchTypeAllowed : JsValue → Bool
  | .str t => t == "hybrid" || t == "semantic" || t == "keyword"
  | _ => false

/-- Models `ChatStorageService.isValidSession` on a parsed record. -/
def isValidSession (s : JsValue) : Bool :=
  jsTruthy s &&
  (match getProp s "id" with | .str _ => true | _ => false) &&
  (match getProp s "name" with | .str _ => true | _ => false) &&
  (match getProp s "messages" with | .arr _ => true | _ => false) &&
  jsTruthy (getProp s "settings") &&
  (match getProp (getProp s "settings") "model" with | .str _ => true | _ => false) &&
  (match getProp (getProp s "settings") "temperature" with | .num _ => true | _ => false) &&
  searchTypeAllowed (getProp (getProp s "settings") "search_type")

/-- Models `ChatStorageService.importSessions` on the text read from the
chosen file: `none` is an unparseable stream (`JSON.parse` throws, the
`catch` resolves `false`), a non-array or a record failing validation
resolves `false` with the store untouched, and a valid array is saved
wholesale. -/
def importSessions (input : Option Json) (st : Store) : Bool × Store :=
  match input with
  | none => (false, st)
  | some j =>
    match jsonToJsValue j with
    | .arr l => if l.all isValidSession then (true, saveSessions l) else (false, st)
    | _ => (false, st)

/-- Models the byte stream produced by `ChatStorageService.exportSessions`
(`JSON.stringify(this.getSessions(), null, 2)`), as the JSON document the
stream denotes. -/
def exportData (st : Store) : Json :=
  stringify (.arr (getSessions st))

/-! ## Structured (well-formed) sessions

The operations above run on raw `JsValue`s, as the duck-typed code does.
The claims quantify over ordinary, well-formed stored collections; we
describe those with structured records mirroring the `ChatSession`,
`ChatMessage` and settings interfaces of `src/types/index.ts`, together
with renderings into `JsValue` that produce exactly the objects the
service constructs. -/

/-- Mirrors `ChatSession['settings']`. -/
structure MSettings where
  model : String
  temperature : Rat
  search_type : String
deriving DecidableEq

/-- Mirrors `ChatMessage['metadata']` with all three fields present. -/
structure MMeta where
  documents_retrieved : Rat
  processing_time : Rat
  search_type : String
deriving DecidableEq

/-- Mirrors `ChatMessage`; `meta` is the optional `metadata` field. -/
structure MMessage where
  id : String
  role : String
  content : String
  timestamp : Int
  meta : Option MMeta
deriving DecidableEq

/-- Mirrors `ChatSession`. -/
structure MSession where
  id : String
  name : String
  messages : List MMessage
  createdAt : Int
  updatedAt : Int
  settings : MSettings
deriving DecidableEq

def MSettings.toJs (s : MSettings) : JsValue :=
  .obj [("model", .str s.model), ("temperature", .num s.temperature),
        ("search_type", .str s.search_type)]

def MMeta.toJs (m : MMeta) : JsValue :=
  .obj [("documents_retrieved", .num m.documents_retrieved),
        ("processing_time", .num m.processing_time),
        ("search_type", .str m.search_type)]

/-- Fields of the caller-supplied part of a message (`role`, `content`,
optional `metadata`), in the order the object literals of the UI build
them. -/
def msgInFields (role content : String) (meta : Option MMeta) : List (String × JsValue) :=
  [("role", .str role), ("content", .str content)] ++
    (match meta with
     | some mm => [("metadata", mm.toJs)]
     | none => [])

/-- The message value `addMessage` constructs:
`{...message, id, timestamp}`. -/
def MMessage.toJs (m : MMessage) : JsValue :=
  .obj (msgInFields m.role m.content m.meta ++
    [("id", .str m.id), ("timestamp", .date (some m.timestamp))])

/-- The session value `createSession` constructs (and `getSessions`
reconstructs), with the fields in the order of the object literal. -/
def MSession.toJs (s : MSession) : JsValue :=
  .obj [("id", .str s.id), ("name", .str s.name),
        ("messages", .arr (s.messages.map MMessage.toJs)),
        ("createdAt", .date (some s.createdAt)),
        ("updatedAt", .date (some s.updatedAt)),
        ("settings", s.settings.toJs)]

/-- A store holding exactly the given well-formed sessions. -/
def storeOf (l : List MSession) : Store :=
  saveSessions (l.map MSession.toJs)

/-! ## License service and API clients

`LicenseService` (src/services/license.ts) keeps a single credential
string under its own storage key; `ApiService.request` attaches it to
every request.  The repository carries three revisions of
`src/services/api.ts`; they are embedded below as `requestV1`/`uploadV1`
(the revision importing `licenseService`, which clears the key on
401/403), `requestV2`/`uploadV2` (the revision reading `LICENSE_KEY`
directly, no clearing), and `requestV3`/`uploadV3` (the revision with the
production fallback URL and CORS handling, which special-cases 401 in
`request` but never clears the key).  A request's outcome is modelled by
`HttpResponse`; the body of an error response is reduced to its `detail`
field (`none` when the body is not parseable JSON, lacks `detail`, or
`detail` is falsy). -/

/-- Client-visible state: the stored license credential and the session
storage (two distinct `localStorage` keys). -/
structure ClientState where
  licenseKey : Option String
  chatStore : Store

/-- Models `LicenseService.clearKey`. -/
def clearKey (st : ClientState) : ClientState :=
  { st with licenseKey := none }

/-- Models `LicenseService.setKey`. -/
def setKey (key : String) (st : ClientState) : ClientState :=
  { st with licenseKey := some key }

/-- Models `LicenseService.isPresent`: true iff a non-empty (after
trimming) credential is stored. -/
def isPresent (st : ClientState) : Bool :=
  match st.licenseKey with
  | some k => !(k.trim == "")
  | none => false

/-- Outcome of one `fetch`: a 2xx response with a parsed JSON body, a
non-2xx response with its status and optional `detail`, or a transport
failure (`fetch` rejects). -/
inductive HttpResponse where
  | success (body : Json) : HttpResponse
  | httpErr (status : Nat) (detail : Option String) : HttpResponse
  | networkFailure : HttpResponse

/-- The generic message `HTTP error! status: <n>`. -/
def httpErrorMsg (status : Nat) : String :=
  "HTTP error! status: " ++ toString status

/-- Models `errorData.detail || defaultMsg` (an empty `detail` is falsy). -/
def detailOr (detail : Option String) (dflt : String) : String :=
  match detail with
  | some d => if d == "" then dflt else d
  | none => dflt

/-- Models `ApiService.request` of the license-service-integrated revision
(the one importing `licenseService`): on a 401 or 403 the credential is
cleared before the error is thrown; every other failure is rethrown with
the state untouched. -/
def requestV1 (st : ClientState) (resp : HttpResponse) : ClientState × Except String Json :=
  match resp with
  | .success body => (st, .ok body)
  | .httpErr status detail =>
    let st' := if status == 401 || status == 403 then clearKey st else st
    (st', .error (detailOr detail (httpErrorMsg status)))
  | .networkFailure => (st, .error "API request failed")

/-- Models `ApiService.uploadDocument` of the same revision: the multipart
path repeats the 401/403 clearing. -/
def uploadV1 (st : ClientState) (resp : HttpResponse) : ClientState × Except String Json :=
  match resp with
  | .success body => (st, .ok body)
  | .httpErr status detail =>
    let st' := if status == 401 || status == 403 then clearKey st else st
    (st', .error (detailOr detail (httpErrorMsg status)))
  | .networkFailure => (st, .error "Document upload failed")

/-- Models `ApiService.request` of the revision reading `LICENSE_KEY`
directly: errors are thrown without touching the credential. -/
def requestV2 (st : ClientState) (resp : HttpResponse) : ClientState × Except String Json :=
  match resp with
  | .success body => (st, .ok body)
  | .httpErr status detail => (st, .error (detailOr detail (httpErrorMsg status)))
  | .networkFailure => (st, .error "API request failed")

/-- Models `ApiService.uploadDocument` of that revision. -/
def uploadV2 (st : ClientState) (resp : HttpResponse) : ClientState × Except String Json :=
  match resp with
  | .success body => (st, .ok body)
  | .httpErr status detail => (st, .error (detailOr detail (httpErrorMsg status)))
  | .networkFailure => (st, .error "Document upload failed")

/-- Models `ApiService.request` of the revision with the production
fallback URL: a 401 throws a dedicated message and a transport failure is
wrapped as a CORS hint, but the credential is never cleared. -/
def requestV3 (st : ClientState) (resp : HttpResponse) : ClientState × Except String Json :=
  match resp with
  | .success body => (st, .ok body)
  | .httpErr status detail =>
    if status == 401 then
      (st, .error (detailOr detail "Unauthorized: Please check your license key"))
    else
      (st, .error (detailOr detail (httpErrorMsg status)))
  | .networkFailure =>
    (st, .error "Network error: Unable to connect to the server. This may be a CORS issue. Please check your backend configuration.")

/-- Models `ApiService.uploadDocument` of that revision: no clearing. -/
def uploadV3 (st : ClientState) (resp : HttpResponse) : ClientState × Except String Json :=
  match resp with
  | .success body => (st, .ok body)
  | .httpErr status detail => (st, .error (detailOr detail (httpErrorMsg status)))
  | .networkFailure => (st, .error "Document upload failed")

/-! ## Round-trip lemmas: well-formed sessions survive save/load -/

theorem transformMsg_toJs (m : MMessage) :
    transformMsg (jsonToJsValue (stringify m.toJs)) = .ok m.toJs := by
  obtain ⟨i, r, c, ts, mm⟩ := m
  cases mm <;>
    simp [MMessage.toJs, MMeta.toJs, msgInFields, stringify, stringifyFields, stringifyList,
      jsonToJsValue, jsonToJsValueFields, jsonToJsValueList, transformMsg,
      getProp, getField, upsertField, spreadFields, dateFromValue]

theorem transformMsgList_toJs (ms : List MMessage) :
    transformMsgList (jsonToJsValueList (stringifyList (ms.map MMessage.toJs))) =
      .ok (ms.map MMessage.toJs) := by
  induction ms with
  | nil => simp [stringifyList, jsonToJsValueList, transformMsgList]
  | cons m ms ih =>
    simp [stringifyList, jsonToJsValueList, transformMsgList, transformMsg_toJs, ih]

theorem transformSession_toJs (s : MSession) :
    transformSession (jsonToJsValue (stringify s.toJs)) = .ok s.toJs := by
  obtain ⟨i, n, ms, c, u, stg⟩ := s
  simp [MSession.toJs, MSettings.toJs, stringify, stringifyFields, stringifyList,
    jsonToJsValue, jsonToJsValueFields, jsonToJsValueList, transformSession,
    transformMsgList_toJs, getProp, getField, upsertField, spreadFields, dateFromValue]

theorem transformSessionList_toJs (l : List MSession) :
    transformSessionList (jsonToJsValueList (stringifyList (l.map MSession.toJs))) =
      .ok (l.map MSession.toJs) := by
  induction l with
  | nil => simp [stringifyList, jsonToJsValueList, transformSessionList]
  | cons s l ih =>
    simp [stringifyList, jsonToJsValueList, transformSessionList, transformSession_toJs, ih]

/-- Saving a list of well-formed sessions and reading it back returns
exactly that list. -/
theorem getSessions_save_map (l : List MSession) :
    getSessions (saveSessions (l.map MSession.toJs)) = l.map MSession.toJs := by
  simp [saveSessions, getSessions, getSessionsE, decodeSessions,
    stringify, jsonToJsValue, transformSessionList_toJs]

/-- The same fact phrased through `storeOf`. -/
theorem getSessions_storeOf (l : List MSession) :
    getSessions (storeOf l) = l.map MSession.toJs :=
  getSessions_save_map l

/-- A well-formed session whose `search_type` is one of the three allowed
values passes `isValidSession` after a serialize/parse round trip. -/
theorem isValidSession_toJs (s : MSession)
    (h : s.settings.search_type = "hybrid" ∨ s.settings.search_type = "semantic" ∨
      s.settings.search_type = "keyword") :
    isValidSession (jsonToJsValue (stringify s.toJs)) = true := by
  obtain ⟨i, n, ms, c, u, stg⟩ := s
  rcases h with h | h | h <;>
    simp_all [MSession.toJs, MSettings.toJs, stringify, stringifyFields, stringifyList,
      jsonToJsValue, jsonToJsValueFields, jsonToJsValueList, isValidSession, jsTruthy,
      getProp, getField, searchTypeAllowed]

/-! ## Model-level operations and simulation lemmas -/

/-- The arguments of one `createSession` call (the clock reading and the
random draw are inputs of the model). -/
structure CreateCall where
  name : String
  settings : MSettings
  nowMs : Nat
  rand : List Char

/-- The session record a `createSession` call builds. -/
def mkSession (c : CreateCall) : MSession :=
  ⟨generateId c.nowMs c.rand, c.name, [], (c.nowMs : Int), (c.nowMs : Int), c.settings⟩

/-- Model of `createSession` on structured collections: insert at the head,
then truncate to the 50 most recent. -/
def mCreate (c : CreateCall) (l : List MSession) : List MSession :=
  (mkSession c :: l).take 50

/-- Runs a sequence of `createSession` calls against the raw store. -/
def createMany (cs : List CreateCall) (st : Store) : Store :=
  cs.foldl (fun acc c => (createSession c.name c.settings.toJs c.nowMs c.rand acc).2) st

/-- Model of a `createSession` sequence on structured collections. -/
def mCreateMany (cs : List CreateCall) (l : List MSession) : List MSession :=
  cs.foldl (fun acc c => mCreate c acc) l

/-- Model of `findIndex` plus in-place update on structured collections. -/
def mUpdateFirst (p : MSession → Bool) (g : MSession → MSession) :
    List MSession → Option (List MSession)
  | [] => none
  | s :: rest =>
    if p s then some (g s :: rest)
    else Option.map (fun rest' => s :: rest') (mUpdateFirst p g rest)

/-- Model of `updateSessionName` on structured collections. -/
def mRename (sid name : String) (nowMs : Nat) : List MSession → Option (List MSession) :=
  mUpdateFirst (fun s => s.id == sid) (fun s => { s with name := name, updatedAt := (nowMs : Int) })

/-- Model of `addMessage` on structured collections: append `m` to the
matching session and refresh its `updatedAt`. -/
def mAddMsg (sid : String) (m : MMessage) (nowMs : Nat) : List MSession → Option (List MSession) :=
  mUpdateFirst (fun s => s.id == sid)
    (fun s => { s with messages := s.messages ++ [m], updatedAt := (nowMs : Int) })

/-- A partial settings object (`Partial<ChatSession['settings']>`). -/
structure MPatch where
  model : Option String
  temperature : Option Rat
  search_type : Option String

/-- Renders the partial settings object with exactly its present fields. -/
def MPatch.toJs (p : MPatch) : JsValue :=
  .obj ((match p.model with | some m => [("model", JsValue.str m)] | none => []) ++
    (match p.temperature with | some t => [("temperature", JsValue.num t)] | none => []) ++
    (match p.search_type with | some st => [("search_type", JsValue.str st)] | none => []))

/-- Spread-merging the patch over existing settings at the model level. -/
def mApplyPatch (p : MPatch) (s : MSettings) : MSettings :=
  ⟨p.model.getD s.model, p.temperature.getD s.temperature, p.search_type.getD s.search_type⟩

/-- Model of `updateSessionSettings` on structured collections. -/
def mUpdateSettings (sid : String) (p : MPatch) (nowMs : Nat) :
    List MSession → Option (List MSession) :=
  mUpdateFirst (fun s => s.id == sid)
    (fun s => { s with settings := mApplyPatch p s.settings, updatedAt := (nowMs : Int) })

theorem idMatches_toJs (sid : String) (s : MSession) :
    idMatches sid s.toJs = (s.id == sid) := by
  simp [idMatches, MSession.toJs, getProp, getField]

/-- The session object built by `createSession` is the rendering of
`mkSession`. -/
theorem createSession_newSession (c : CreateCall) (st : Store) :
    (createSession c.name c.settings.toJs c.nowMs c.rand st).1 = (mkSession c).toJs := by
  simp [createSession, mkSession, MSession.toJs]

/-- The insert-then-truncate step always keeps the first 50 entries. -/
theorem iteTake50 (xs : List JsValue) :
    (if 50 < xs.length then xs.take 50 else xs) = xs.take 50 := by
  by_cases h : 50 < xs.length
  · simp [h]
  · simp [h, List.take_of_length_le (Nat.le_of_not_lt h)]

/-- Simulation of `createSession` on a structured store. -/
theorem createSession_storeOf (c : CreateCall) (l : List MSession) :
    (createSession c.name c.settings.toJs c.nowMs c.rand (storeOf l)).2 =
      storeOf (mCreate c l) := by
  simp only [createSession, storeOf, getSessions_save_map, mCreate, iteTake50]
  simp [mkSession, MSession.toJs, List.map_take]

/-- Simulation of `updateFirstJs` over a rendered collection. -/
theorem updateFirstJs_map (P : JsValue → Bool) (f : JsValue → JsValue)
    (p : MSession → Bool) (g : MSession → MSession)
    (hP : ∀ s : MSession, P s.toJs = p s)
    (hf : ∀ s : MSession, p s = true → f s.toJs = (g s).toJs) :
    ∀ l : List MSession,
      updateFirstJs P f (l.map MSession.toJs) =
        Option.map (List.map MSession.toJs) (mUpdateFirst p g l)
  | [] => by simp [updateFirstJs, mUpdateFirst]
  | s :: rest => by
    by_cases h : p s
    · simp [updateFirstJs, mUpdateFirst, hP, h, hf s h]
    · simp only [List.map_cons, updateFirstJs, mUpdateFirst, hP, h, if_neg]
      rw [updateFirstJs_map P f p g hP hf rest]
      cases mUpdateFirst p g rest <;> simp

/-- The in-place rename matches the model update. -/
theorem rename_toJs (name : String) (now : Nat) (s : MSession) :
    setProp (setProp s.toJs "name" (.str name)) "updatedAt" (.date (some (now : Int))) =
      ({ s with name := name, updatedAt := (now : Int) } : MSession).toJs := by
  simp [MSession.toJs, setProp, upsertField]

/-- Simulation of `updateSessionName` on a structured store. -/
theorem updateSessionName_storeOf (sid name : String) (now : Nat) (l : List MSession) :
    updateSessionName sid name now (storeOf l) =
      (match mRename sid name now l with
       | none => (false, storeOf l)
       | some l' => (true, storeOf l')) := by
  simp only [updateSessionName, storeOf, getSessions_save_map]
  rw [updateFirstJs_map (idMatches sid) _ (fun s => s.id == sid)
    (fun s => { s with name := name, updatedAt := (now : Int) }) (idMatches_toJs sid)
    (fun s _ => rename_toJs name now s) l]
  show _ = (match mUpdateFirst (fun s => s.id == sid) _ l with
    | none => (false, saveSessions (l.map MSession.toJs))
    | some l' => (true, saveSessions (l'.map MSession.toJs)))
  cases mUpdateFirst (fun s => s.id == sid)
    (fun s => { s with name := name, updatedAt := (now : Int) }) l <;> simp

/-- The spread-merge of a partial settings object over rendered settings is
the rendering of the model-level merge. -/
theorem merge_toJs (p : MPatch) (stg : MSettings) :
    JsValue.obj (mergeFields (spreadFields stg.toJs) (spreadFields p.toJs)) =
      (mApplyPatch p stg).toJs := by
  obtain ⟨pm, pt, ps⟩ := p
  cases pm <;> cases pt <;> cases ps <;>
    simp [MPatch.toJs, MSettings.toJs, mApplyPatch, mergeFields, spreadFields, upsertField]

/-- The in-place settings update matches the model update. -/
theorem settings_update_toJs (p : MPatch) (now : Nat) (s : MSession) :
    setProp
        (setProp s.toJs "settings"
          (.obj (mergeFields (spreadFields (getProp s.toJs "settings")) (spreadFields p.toJs))))
        "updatedAt" (.date (some (now : Int))) =
      ({ s with settings := mApplyPatch p s.settings, updatedAt := (now : Int) } : MSession).toJs := by
  have h : getProp s.toJs "settings" = s.settings.toJs := by
    simp [MSession.toJs, getProp, getField]
  rw [h, merge_toJs]
  simp [MSession.toJs, setProp, upsertField]

/-- Simulation of `updateSessionSettings` on a structured store. -/
theorem updateSessionSettings_storeOf (sid : String) (p : MPatch) (now : Nat) (l : List MSession) :
    updateSessionSettings sid p.toJs now (storeOf l) =
      (match mUpdateSettings sid p now l with
       | none => (false, storeOf l)
       | some l' => (true, storeOf l')) := by
  simp only [updateSessionSettings, storeOf, getSessions_save_map]
  rw [updateFirstJs_map (idMatches sid) _ (fun s => s.id == sid)
    (fun s => { s with settings := mApplyPatch p s.settings, updatedAt := (now : Int) })
    (idMatches_toJs sid) (fun s _ => settings_update_toJs p now s) l]
  show _ = (match mUpdateFirst (fun s => s.id == sid) _ l with
    | none => (false, saveSessions (l.map MSession.toJs))
    | some l' => (true, saveSessions (l'.map MSession.toJs)))
  cases mUpdateFirst (fun s => s.id == sid)
    (fun s => { s with settings := mApplyPatch p s.settings, updatedAt := (now : Int) }) l <;> simp

/-- Simulation of the find-and-push step on a rendered collection. -/
theorem addMsgFirst_map (sid : String) (m : MMessage) (now : Nat) :
    ∀ l : List MSession,
      addMsgFirst sid m.toJs now (l.map MSession.toJs) =
        .ok (Option.map (List.map MSession.toJs) (mAddMsg sid m now l))
  | [] => by simp [addMsgFirst, mAddMsg, mUpdateFirst]
  | s :: rest => by
    by_cases h : (s.id == sid) = true
    · have hmatch : idMatches sid s.toJs = true := by rw [idMatches_toJs]; exact h
      have hmsgs : getProp s.toJs "messages" = .arr (s.messages.map MMessage.toJs) := by
        simp [MSession.toJs, getProp, getField]
      simp only [List.map_cons, addMsgFirst, hmatch, if_true, hmsgs, mAddMsg, mUpdateFirst, h]
      simp [MSession.toJs, setProp, upsertField]
    · have hmatch : idMatches sid s.toJs = false := by simp [idMatches_toJs, h]
      simp only [List.map_cons, addMsgFirst, hmatch, Bool.false_eq_true, if_false,
        mAddMsg, mUpdateFirst, h]
      rw [addMsgFirst_map sid m now rest]
      simp only [mAddMsg]
      cases mUpdateFirst (fun s => s.id == sid)
        (fun s => { s with messages := s.messages ++ [m], updatedAt := (now : Int) }) rest <;> simp

/-- The message record an `addMessage(sessionId, {role, content, metadata?})`
call builds. -/
def mkMessage (role content : String) (meta : Option MMeta) (nowMs : Nat)
    (rand : List Char) : MMessage :=
  ⟨generateId nowMs rand, role, content, (nowMs : Int), meta⟩

/-- The message object built by `addMessage` is the rendering of
`mkMessage`. -/
theorem addMessage_newMsg (role content : String) (meta : Option MMeta) (now : Nat)
    (rand : List Char) :
    JsValue.obj
        (upsertField "timestamp" (.date (some (now : Int)))
          (upsertField "id" (.str (generateId now rand))
            (spreadFields (.obj (msgInFields role content meta))))) =
      (mkMessage role content meta now rand).toJs := by
  cases meta <;>
    simp [msgInFields, MMessage.toJs, mkMessage, spreadFields, upsertField]

/-- Simulation of `addMessage` on a structured store: it never throws, and
acts as `mAddMsg`. -/
theorem addMessage_storeOf (sid role content : String) (meta : Option MMeta) (now : Nat)
    (rand : List Char) (l : List MSession) :
    addMessage sid (.obj (msgInFields role content meta)) now rand (storeOf l) =
      .ok (match mAddMsg sid (mkMessage role content meta now rand) now l with
           | none => (none, storeOf l)
           | some l' => (some (mkMessage role content meta now rand).toJs, storeOf l')) := by
  simp only [addMessage, storeOf, getSessions_save_map, addMessage_newMsg,
    addMsgFirst_map sid (mkMessage role content meta now rand) now l]
  cases mAddMsg sid (mkMessage role content meta now rand) now l <;> simp

/-! ## Auxiliary lemmas -/

theorem jsonToJsValueList_map : ∀ l : List Json, jsonToJsValueList l = l.map jsonToJsValue
  | [] => by simp [jsonToJsValueList]
  | j :: js => by simp [jsonToJsValueList, jsonToJsValueList_map js]

theorem stringifyList_map : ∀ l : List JsValue, stringifyList l = l.map stringify
  | [] => by simp [stringifyList]
  | v :: vs => by simp [stringifyList, stringifyList_map vs]

mutual

/-- Serializing a freshly parsed document reproduces the document: parsed
values contain no `undefined` and no `Date`. -/
theorem stringify_jsonToJsValue : ∀ j : Json, stringify (jsonToJsValue j) = j
  | .null => by simp [jsonToJsValue, stringify]
  | .bool b => by simp [jsonToJsValue, stringify]
  | .num q => by simp [jsonToJsValue, stringify]
  | .str s => by simp [jsonToJsValue, stringify]
  | .arr l => by simp [jsonToJsValue, stringify, stringify_jsonToJsValueList l]
  | .obj fs => by simp [jsonToJsValue, stringify, stringify_jsonToJsValueFields fs]

theorem stringify_jsonToJsValueList : ∀ l : List Json, stringifyList (jsonToJsValueList l) = l
  | [] => by simp [jsonToJsValueList, stringifyList]
  | j :: js => by
    simp [jsonToJsValueList, stringifyList, stringify_jsonToJsValue j,
      stringify_jsonToJsValueList js]

theorem stringify_jsonToJsValueFields :
    ∀ fs : List (String × Json), stringifyFields (jsonToJsValueFields fs) = fs
  | [] => by simp [jsonToJsValueFields, stringifyFields]
  | (k, v) :: fs => by
    have h1 := stringify_jsonToJsValue v
    have h2 := stringify_jsonToJsValueFields fs
    cases v <;> simp_all [jsonToJsValueFields, stringifyFields, jsonToJsValue]

end

/-- A first-match update that finds nothing reports failure. -/
theorem mUpdateFirst_none (p : MSession → Bool) (g : MSession → MSession) :
    ∀ l : List MSession, (∀ s ∈ l, p s = false) → mUpdateFirst p g l = none
  | [] => fun _ => rfl
  | s :: rest => fun h => by
    simp [mUpdateFirst, h s (by simp),
      mUpdateFirst_none p g rest (fun x hx => h x (by simp [hx]))]

/-- A first-match update applied past a non-matching prefix. -/
theorem mUpdateFirst_append (p : MSession → Bool) (g : MSession → MSession) :
    ∀ (l₁ : List MSession) (s : MSession) (l₂ : List MSession),
      (∀ x ∈ l₁, p x = false) → p s = true →
      mUpdateFirst p g (l₁ ++ s :: l₂) = some (l₁ ++ g s :: l₂)
  | [], s, l₂ => fun _ hs => by simp [mUpdateFirst, hs]
  | x :: l₁, s, l₂ => fun h hs => by
    simp [mUpdateFirst, h x (by simp),
      mUpdateFirst_append p g l₁ s l₂ (fun y hy => h y (by simp [hy])) hs]

/-- A successful first-match update decomposes the collection. -/
theorem mUpdateFirst_some_decomp (p : MSession → Bool) (g : MSession → MSession) :
    ∀ (l l' : List MSession), mUpdateFirst p g l = some l' →
      ∃ l₁ s l₂, l = l₁ ++ s :: l₂ ∧ (∀ x ∈ l₁, p x = false) ∧ p s = true ∧
        l' = l₁ ++ g s :: l₂
  | [], l', h => by simp [mUpdateFirst] at h
  | s :: rest, l', h => by
    by_cases hp : p s
    · refine ⟨[], s, rest, by simp, by simp, hp, ?_⟩
      simp [mUpdateFirst, hp] at h
      simp [h.symm]
    · simp only [mUpdateFirst, hp, Bool.false_eq_true, if_false] at h
      match hrest : mUpdateFirst p g rest with
      | none => rw [hrest] at h; simp at h
      | some rest' =>
        rw [hrest] at h
        simp at h
        obtain ⟨l₁, t, l₂, hl, hpre, hpt, hl'⟩ := mUpdateFirst_some_decomp p g rest rest' hrest
        exact ⟨s :: l₁, t, l₂, by simp [hl], by
          intro x hx
          rcases List.mem_cons.mp hx with hx | hx
          · simpa [hx] using hp
          · exact hpre x hx, hpt, by simp [h.symm, hl']⟩

/-- The raw find-and-push reports not-found over a collection with no
matching id. -/
theorem addMsgFirst_notfound (sid : String) (msg : JsValue) (now : Nat) :
    ∀ l : List JsValue, (∀ s ∈ l, idMatches sid s = false) →
      addMsgFirst sid msg now l = .ok none
  | [] => fun _ => rfl
  | s :: rest => fun h => by
    simp [addMsgFirst, h s (by simp),
      addMsgFirst_notfound sid msg now rest (fun x hx => h x (by simp [hx]))]

/-- The raw find-and-update reports not-found over a collection with no
matching id. -/
theorem updateFirstJs_notfound (p : JsValue → Bool) (f : JsValue → JsValue) :
    ∀ l : List JsValue, (∀ s ∈ l, p s = false) → updateFirstJs p f l = none
  | [] => fun _ => rfl
  | s :: rest => fun h => by
    simp [updateFirstJs, h s (by simp),
      updateFirstJs_notfound p f rest (fun x hx => h x (by simp [hx]))]

/-! ## Claims -/

/-- Claim C1, counterexample: in the API client revision cited as
`ApiService.request (variant)` (the one with the production fallback URL),
a request receiving HTTP 401 surfaces the error to the caller but leaves
the stored license credential in place, so not every request path clears
the credential on an authorization rejection. -/
theorem C1_counterexample :
    (requestV3 ⟨some "key-1", none⟩ (.httpErr 401 none)).1.licenseKey = some "key-1" ∧
    (requestV3 ⟨some "key-1", none⟩ (.httpErr 401 none)).2 =
      .error "Unauthorized: Please check your license key" := by
  constructor
  · simp [requestV3]
  · simp [requestV3, detailOr]

/-- Claim C1, amended: in the license-service-integrated API client
revision, every request observing HTTP 401 or 403 — the JSON path and the
multipart upload path alike — clears the stored credential before
surfacing the error, and the session storage is untouched; the revision
with the production fallback URL surfaces the error without clearing. -/
theorem C1_v1_clears_on_auth_rejection (st : ClientState) (status : Nat)
    (detail : Option String) (h : status = 401 ∨ status = 403) :
    requestV1 st (.httpErr status detail) =
      ({ licenseKey := none, chatStore := st.chatStore },
        .error (detailOr detail (httpErrorMsg status))) ∧
    uploadV1 st (.httpErr status detail) =
      ({ licenseKey := none, chatStore := st.chatStore },
        .error (detailOr detail (httpErrorMsg status))) := by
  rcases h with h | h <;> subst h <;> simp [requestV1, uploadV1, clearKey]

theorem C1_v1_clears_on_auth_rejection_witness :
    requestV1 ⟨some "key-1", none⟩ (.httpErr 403 none) =
      ({ licenseKey := none, chatStore := none },
        .error (detailOr none (httpErrorMsg 403))) ∧
    uploadV1 ⟨some "key-1", none⟩ (.httpErr 403 none) =
      ({ licenseKey := none, chatStore := none },
        .error (detailOr none (httpErrorMsg 403))) :=
  C1_v1_clears_on_auth_rejection ⟨some "key-1", none⟩ 403 none (Or.inr rfl)

/-- Claim C8: for every stored value under the session storage key —
including an unparseable string and parseable documents of the wrong
shape — `getSessions` returns the value of its `try` body when that body
does not throw, and the empty list whenever it throws (so a parse or
deserialization error never propagates). -/
theorem C8_getSessions_fail_closed (st : Store) :
    ((getSessionsE st).isOk = false → getSessions st = []) ∧
    (∀ l, getSessionsE st = .ok l → getSessions st = l) ∧
    (getSessions (some none) = []) ∧
    (∀ j : Json, (∀ l, j ≠ Json.arr l) → getSessions (some (some j)) = []) := by
  refine ⟨?_, ?_, ?_, ?_⟩
  · intro h
    cases hE : getSessionsE st with
    | error e => simp [getSessions, hE]
    | ok l => rw [hE] at h; simp [Except.isOk, Except.toBool] at h
  · intro l hE
    simp [getSessions, hE]
  · simp [getSessions, getSessionsE]
  · intro j hj
    cases j with
    | arr l => exact absurd rfl (hj l)
    | null => simp [getSessions, getSessionsE, decodeSessions, jsonToJsValue]
    | bool b => simp [getSessions, getSessionsE, decodeSessions, jsonToJsValue]
    | num q => simp [getSessions, getSessionsE, decodeSessions, jsonToJsValue]
    | str s => simp [getSessions, getSessionsE, decodeSessions, jsonToJsValue]
    | obj fs => simp [getSessions, getSessionsE, decodeSessions, jsonToJsValue]

theorem C8_getSessions_fail_closed_witness :
    getSessions (some none) = [] ∧ getSessions (some (some (Json.str "oops"))) = [] :=
  ⟨(C8_getSessions_fail_closed (some none)).2.2.1,
   (C8_getSessions_fail_closed (some (some (Json.str "oops")))).2.2.2
     (Json.str "oops") (fun _ h => Json.noConfusion h)⟩

/-- A stored record whose `messages` is missing: deserialization throws and
`getSessions` fails closed to the empty list. -/
theorem getSessions_missing_messages_empty :
    getSessions (some (some (Json.arr [Json.obj [("id", Json.str "a")]]))) = [] := by
  simp [getSessions, getSessionsE, decodeSessions, jsonToJsValue, jsonToJsValueList,
    jsonToJsValueFields, transformSessionList, transformSession, getProp, getField]

/-- A syntactically valid but semantically odd import payload: settings
with `temperature` 5 (outside `[0, 1]`) and a `messages` array whose
single element is the number 1 (not a ChatMessage record). -/
def C10payload : Json :=
  .arr [.obj [("id", .str "s1"), ("name", .str "weird"),
    ("messages", .arr [.num 1]),
    ("settings", .obj [("model", .str "gpt-4o"), ("temperature", .num 5),
      ("search_type", .str "keyword")])]]

/-- Claim C10: import validation is shape-only — the payload above passes
`isValidSession` for every record and `importSessions` stores it verbatim
and reports success, even though its temperature 5 exceeds 1 and its
message element is not a ChatMessage record. -/
theorem C10_shape_only_validation :
    importSessions (some C10payload) none = (true, some (some C10payload)) ∧
    (1 : Rat) < 5 := by
  constructor
  · simp [importSessions, C10payload, jsonToJsValue, jsonToJsValueList, jsonToJsValueFields,
      isValidSession, jsTruthy, getProp, getField, searchTypeAllowed, saveSessions,
      stringify, stringifyList, stringifyFields]
  · norm_num

/-- Evaluation of `importSessions` on a parsed array. -/
theorem importSessions_arr (l : List Json) (st : Store) :
    importSessions (some (.arr l)) st =
      (if (l.map jsonToJsValue).all isValidSession
       then (true, saveSessions (l.map jsonToJsValue))
       else (false, st)) := by
  simp [importSessions, jsonToJsValue, jsonToJsValueList_map]

/-- Evaluation of `importSessions` on a parsed non-array document. -/
theorem importSessions_nonarr (j : Json) (hj : ∀ l, j ≠ Json.arr l) (st : Store) :
    importSessions (some j) st = (false, st) := by
  cases j with
  | arr l => exact absurd rfl (hj l)
  | null => simp [importSessions, jsonToJsValue]
  | bool b => simp [importSessions, jsonToJsValue]
  | num q => simp [importSessions, jsonToJsValue]
  | str s => simp [importSessions, jsonToJsValue]
  | obj fs => simp [importSessions, jsonToJsValue]

/-- Claim C3: `importSessions` returns false and leaves the stored
collection unchanged whenever the stream is unparseable, is not an array,
or any record fails the shape validation; on success it replaces the
entire stored collection with the imported array in one write. -/
theorem C3_import_validation (input : Option Json) (st : Store) :
    ((importSessions input st).1 = false → (importSessions input st).2 = st) ∧
    (input = none → (importSessions input st).1 = false) ∧
    (∀ j, input = some j → (∀ l, j ≠ Json.arr l) → (importSessions input st).1 = false) ∧
    (∀ l e, input = some (Json.arr l) → e ∈ l → isValidSession (jsonToJsValue e) = false →
      (importSessions input st).1 = false) ∧
    (∀ l, input = some (Json.arr l) → (∀ e ∈ l, isValidSession (jsonToJsValue e) = true) →
      importSessions input st = (true, saveSessions (l.map jsonToJsValue))) := by
  refine ⟨?_, ?_, ?_, ?_, ?_⟩
  · intro h
    cases input with
    | none => rfl
    | some j =>
      by_cases hj : ∃ l, j = Json.arr l
      · obtain ⟨l, rfl⟩ := hj
        rw [importSessions_arr] at h ⊢
        by_cases hall : (l.map jsonToJsValue).all isValidSession
        · rw [if_pos hall] at h; simp at h
        · rw [if_neg hall]
      · rw [importSessions_nonarr j (fun l hl => hj ⟨l, hl⟩) st]
  · intro h; subst h; rfl
  · intro j hin hj
    subst hin
    rw [importSessions_nonarr j hj st]
  · intro l e hin he hbad
    subst hin
    rw [importSessions_arr]
    have hall : (l.map jsonToJsValue).all isValidSession = false := by
      apply List.all_eq_false.mpr
      exact ⟨jsonToJsValue e, List.mem_map_of_mem jsonToJsValue he, by simp [hbad]⟩
    rw [if_neg (by simp [hall])]
  · intro l hin hok
    subst hin
    rw [importSessions_arr]
    have hall : (l.map jsonToJsValue).all isValidSession = true := by
      apply List.all_eq_true.mpr
      intro v hv
      obtain ⟨e, he, rfl⟩ := List.mem_map.mp hv
      exact hok e he
    rw [if_pos hall]

/-- An import payload whose second record lacks `settings.model`. -/
def C3badPayload : Json :=
  .arr [.obj [("id", .str "s1"), ("name", .str "one"), ("messages", .arr []),
          ("settings", .obj [("model", .str "gpt-4o"), ("temperature", .num (1/2)),
            ("search_type", .str "hybrid")])],
        .obj [("id", .str "s2"), ("name", .str "two"), ("messages", .arr []),
          ("settings", .obj [("temperature", .num (1/2)),
            ("search_type", .str "hybrid")])]]

theorem C3_import_validation_witness :
    importSessions (some C3badPayload) (none : Store) = (false, none) := by
  have hbad : isValidSession (jsonToJsValue
      (.obj [("id", .str "s2"), ("name", .str "two"), ("messages", .arr []),
        ("settings", .obj [("temperature", .num (1/2)),
          ("search_type", .str "hybrid")])])) = false := by
    simp [isValidSession, jsonToJsValue, jsonToJsValueFields, jsonToJsValueList,
      jsTruthy, getProp, getField, searchTypeAllowed]
  have h1 := (C3_import_validation (some C3badPayload) none).2.2.2.1
    (match C3badPayload with | .arr l => l | _ => []) _ rfl (by simp [C3badPayload]) hbad
  have h2 := (C3_import_validation (some C3badPayload) none).1 h1
  exact Prod.ext h1 h2

/-- Claim C6: `addMessage` on an id absent from the stored collection
returns the `null` sentinel with the store untouched (same stored bytes);
on a present id it returns the fully populated message (fresh id from the
generator, timestamp from the clock), appends it to that session's message
sequence, and refreshes that session's `updatedAt`, leaving every other
session unchanged. -/
theorem C6_addMessage (sid : String) (now : Nat) (rand : List Char) :
    (∀ (st : Store) (msgIn : JsValue), (∀ s ∈ getSessions st, idMatches sid s = false) →
      addMessage sid msgIn now rand st = .ok (none, st)) ∧
    (∀ (role content : String) (meta : Option MMeta)
        (l₁ : List MSession) (s : MSession) (l₂ : List MSession),
      (∀ x ∈ l₁, (x.id == sid) = false) → (s.id == sid) = true →
      addMessage sid (.obj (msgInFields role content meta)) now rand
          (storeOf (l₁ ++ s :: l₂)) =
        .ok (some (mkMessage role content meta now rand).toJs,
          storeOf (l₁ ++
            { s with
                messages := s.messages ++ [mkMessage role content meta now rand],
                updatedAt := (now : Int) } :: l₂))) := by
  constructor
  · intro st msgIn h
    have hrw := addMsgFirst_notfound sid
      (.obj (upsertField "timestamp" (.date (some (now : Int)))
        (upsertField "id" (.str (generateId now rand)) (spreadFields msgIn)))) now
      (getSessions st) h
    simp [addMessage, hrw]
  · intro role content meta l₁ s l₂ h hs
    rw [addMessage_storeOf sid role content meta now rand (l₁ ++ s :: l₂)]
    have hupd := mUpdateFirst_append (fun x => x.id == sid)
      (fun x => { x with
        messages := x.messages ++ [mkMessage role content meta now rand],
        updatedAt := (now : Int) }) l₁ s l₂ h hs
    simp only [mAddMsg, hupd]

theorem C6_addMessage_witness :
    addMessage "nope" (.str "junk") 7 ['a'] (none : Store) = .ok (none, none) ∧
    addMessage "sA" (.obj (msgInFields "user" "hi" none)) 7 ['a']
        (storeOf [⟨"sA", "chat", [], 3, 3, ⟨"gpt-4o", 1/2, "hybrid"⟩⟩]) =
      .ok (some (mkMessage "user" "hi" none 7 ['a']).toJs,
        storeOf [⟨"sA", "chat", [mkMessage "user" "hi" none 7 ['a']], 3, 7,
          ⟨"gpt-4o", 1/2, "hybrid"⟩⟩]) := by
  constructor
  · exact (C6_addMessage "nope" 7 ['a']).1 none (.str "junk")
      (by intro s hs; simp [getSessions, getSessionsE] at hs)
  · exact (C6_addMessage "sA" 7 ['a']).2 "user" "hi" none []
      ⟨"sA", "chat", [], 3, 3, ⟨"gpt-4o", 1/2, "hybrid"⟩⟩ [] (by simp) (by decide)

/-- Claim C7: `updateSessionSettings` merges exactly the provided fields of
the partial settings object into the target session's settings and sets its
`updatedAt` to the current clock; with a `{temperature}` patch the model and
search type (and all other fields, and every other session) are untouched.
On an absent id it reports failure and the store is untouched. -/
theorem C7_updateSessionSettings (sid : String) (now : Nat) :
    (∀ (l : List MSession), (∀ s ∈ l, (s.id == sid) = false) →
      ∀ p : MPatch, updateSessionSettings sid p.toJs now (storeOf l) = (false, storeOf l)) ∧
    (∀ (p : MPatch) (l₁ : List MSession) (s : MSession) (l₂ : List MSession),
      (∀ x ∈ l₁, (x.id == sid) = false) → (s.id == sid) = true →
      updateSessionSettings sid p.toJs now (storeOf (l₁ ++ s :: l₂)) =
        (true, storeOf (l₁ ++
          { s with settings := mApplyPatch p s.settings, updatedAt := (now : Int) } :: l₂))) ∧
    (∀ (t : Rat) (l₁ : List MSession) (s : MSession) (l₂ : List MSession),
      (∀ x ∈ l₁, (x.id == sid) = false) → (s.id == sid) = true →
      updateSessionSettings sid (MPatch.mk none (some t) none).toJs now
          (storeOf (l₁ ++ s :: l₂)) =
        (true, storeOf (l₁ ++
          { s with
              settings := ⟨s.settings.model, t, s.settings.search_type⟩,
              updatedAt := (now : Int) } :: l₂))) := by
  have hgen : ∀ (p : MPatch) (l₁ : List MSession) (s : MSession) (l₂ : List MSession),
      (∀ x ∈ l₁, (x.id == sid) = false) → (s.id == sid) = true →
      updateSessionSettings sid p.toJs now (storeOf (l₁ ++ s :: l₂)) =
        (true, storeOf (l₁ ++
          { s with settings := mApplyPatch p s.settings, updatedAt := (now : Int) } :: l₂)) := by
    intro p l₁ s l₂ h hs
    rw [updateSessionSettings_storeOf sid p now (l₁ ++ s :: l₂)]
    have hupd := mUpdateFirst_append (fun x => x.id == sid)
      (fun x => { x with settings := mApplyPatch p x.settings, updatedAt := (now : Int) })
      l₁ s l₂ h hs
    simp only [mUpdateSettings, hupd]
  refine ⟨?_, hgen, ?_⟩
  · intro l h p
    rw [updateSessionSettings_storeOf sid p now l]
    have hupd := mUpdateFirst_none (fun x => x.id == sid)
      (fun x => { x with settings := mApplyPatch p x.settings, updatedAt := (now : Int) }) l h
    simp only [mUpdateSettings, hupd]
  · intro t l₁ s l₂ h hs
    have := hgen (MPatch.mk none (some t) none) l₁ s l₂ h hs
    simpa [mApplyPatch] using this

theorem C7_updateSessionSettings_witness :
    updateSessionSettings "sA" (MPatch.mk none (some (1/2)) none).toJs 9
        (storeOf [⟨"sA", "chat", [], 3, 3, ⟨"gpt-4o", 1, "hybrid"⟩⟩]) =
      (true, storeOf [⟨"sA", "chat", [], 3, 9, ⟨"gpt-4o", 1/2, "hybrid"⟩⟩]) ∧
    updateSessionSettings "sB" (MPatch.mk none (some (1/2)) none).toJs 9
        (storeOf [⟨"sA", "chat", [], 3, 3, ⟨"gpt-4o", 1, "hybrid"⟩⟩]) =
      (false, storeOf [⟨"sA", "chat", [], 3, 3, ⟨"gpt-4o", 1, "hybrid"⟩⟩]) := by
  constructor
  · exact (C7_updateSessionSettings "sA" 9).2.2 (1/2) []
      ⟨"sA", "chat", [], 3, 3, ⟨"gpt-4o", 1, "hybrid"⟩⟩ [] (by simp) (by decide)
  · exact (C7_updateSessionSettings "sB" 9).1
      [⟨"sA", "chat", [], 3, 3, ⟨"gpt-4o", 1, "hybrid"⟩⟩]
      (by intro s hs; simp at hs; simp [hs]) (MPatch.mk none (some (1/2)) none)

/-- Truncating again after appending to a truncated list changes nothing. -/
theorem take_append_take (x y : List MSession) :
    (x ++ y.take 50).take 50 = (x ++ y).take 50 := by
  rw [List.take_append_eq_append_take, List.take_append_eq_append_take, List.take_take,
    Nat.min_eq_left (Nat.sub_le 50 x.length)]

/-- A `createSession` sequence on a structured store stays structured. -/
theorem createMany_storeOf : ∀ (cs : List CreateCall) (l : List MSession),
    createMany cs (storeOf l) = storeOf (mCreateMany cs l)
  | [], l => rfl
  | c :: cs, l => by
    simp only [createMany, mCreateMany, List.foldl_cons]
    rw [show (createSession c.name c.settings.toJs c.nowMs c.rand (storeOf l)).2 =
      storeOf (mCreate c l) from createSession_storeOf c l]
    exact createMany_storeOf cs (mCreate c l)

/-- The result of a `createSession` sequence: all created sessions newest
first, then the previous collection, truncated to 50. -/
theorem mCreateMany_eq : ∀ (cs : List CreateCall) (init : List MSession),
    init.length ≤ 50 →
    mCreateMany cs init = ((cs.map mkSession).reverse ++ init).take 50
  | [], init => fun h => by simp [mCreateMany, List.take_of_length_le h]
  | c :: cs, init => fun h => by
    have hstep : mCreateMany (c :: cs) init = mCreateMany cs (mCreate c init) := rfl
    rw [hstep, mCreateMany_eq cs (mCreate c init) (by simp [mCreate])]
    rw [mCreate, take_append_take]
    simp

/-- Claim C2: starting from any stored collection within the cap, after any
sequence of `createSession` calls the stored collection never exceeds 50
sessions and consists of exactly the most recently created sessions (newest
at the front) followed by the survivors of the previous collection,
truncated to 50; once 50 or more creations have happened it is exactly the
50 most recently created sessions. -/
theorem C2_retention_cap (init : List MSession) (cs : List CreateCall)
    (hinit : init.length ≤ 50) :
    getSessions (createMany cs (storeOf init)) =
      (((cs.map mkSession).reverse ++ init).take 50).map MSession.toJs ∧
    (getSessions (createMany cs (storeOf init))).length ≤ 50 ∧
    (50 ≤ cs.length →
      getSessions (createMany cs (storeOf init)) =
        ((cs.map mkSession).reverse.take 50).map MSession.toJs) := by
  have hmain : getSessions (createMany cs (storeOf init)) =
      (((cs.map mkSession).reverse ++ init).take 50).map MSession.toJs := by
    rw [createMany_storeOf cs init, getSessions_storeOf, mCreateMany_eq cs init hinit]
  refine ⟨hmain, ?_, ?_⟩
  · rw [hmain]
    simp [List.length_take]
  · intro hlen
    rw [hmain, List.take_append_of_le_length (by simpa using hlen)]

theorem C2_retention_cap_witness :
    ([] : List MSession).length ≤ 50 ∧
    getSessions (createMany [⟨"chat", ⟨"gpt-4o", 1/2, "hybrid"⟩, 3, []⟩] (storeOf [])) =
      [(mkSession ⟨"chat", ⟨"gpt-4o", 1/2, "hybrid"⟩, 3, []⟩).toJs] := by
  refine ⟨by simp, ?_⟩
  have h := (C2_retention_cap [] [⟨"chat", ⟨"gpt-4o", 1/2, "hybrid"⟩, 3, []⟩] (by simp)).1
  simpa using h

/-- Serializing after parsing is the identity, lifted to lists. -/
theorem map_stringify_jsonToJsValue (X : List Json) :
    List.map stringify (List.map jsonToJsValue X) = X := by
  rw [List.map_map]
  have h : ∀ a ∈ X, (stringify ∘ jsonToJsValue) a = id a := fun a _ =>
    stringify_jsonToJsValue a
  rw [List.map_congr_left h, List.map_id]

/-- Claim C5: exporting the stored collection and importing the resulting
stream succeeds and reproduces the same collection (same ids, names,
message sequences and settings), regardless of what the store held
beforehand: the operation replaces rather than merges, so the resulting
collection has exactly the exported length. -/
theorem C5_export_import_roundtrip (l : List MSession) (st2 : Store)
    (hst : ∀ s ∈ l, s.settings.search_type = "hybrid" ∨
      s.settings.search_type = "semantic" ∨ s.settings.search_type = "keyword") :
    (importSessions (some (exportData (storeOf l))) st2).1 = true ∧
    getSessions ((importSessions (some (exportData (storeOf l))) st2).2) =
      l.map MSession.toJs ∧
    (getSessions ((importSessions (some (exportData (storeOf l))) st2).2)).length =
      l.length := by
  have hexp : exportData (storeOf l) = .arr (stringifyList (l.map MSession.toJs)) := by
    rw [exportData, getSessions_storeOf]
    simp [stringify]
  have hvalid : ((stringifyList (l.map MSession.toJs)).map jsonToJsValue).all
      isValidSession = true := by
    rw [stringifyList_map]
    apply List.all_eq_true.mpr
    intro v hv
    rw [List.map_map, List.map_map] at hv
    obtain ⟨s, hs, rfl⟩ := List.mem_map.mp hv
    exact isValidSession_toJs s (hst s hs)
  have himp : importSessions (some (exportData (storeOf l))) st2 =
      (true, saveSessions ((stringifyList (l.map MSession.toJs)).map jsonToJsValue)) := by
    rw [hexp, importSessions_arr, if_pos hvalid]
  have hsave : saveSessions ((stringifyList (l.map MSession.toJs)).map jsonToJsValue) =
      storeOf l := by
    simp only [saveSessions, storeOf, stringify, stringifyList_map]
    rw [map_stringify_jsonToJsValue]
  rw [himp, hsave]
  exact ⟨rfl, getSessions_storeOf l, by rw [getSessions_storeOf, List.length_map]⟩

theorem C5_export_import_roundtrip_witness :
    (importSessions
      (some (exportData (storeOf [⟨"sA", "solo", [], 1, 1, ⟨"gpt-4o", 1/2, "hybrid"⟩⟩])))
      (storeOf [⟨"sB", "one", [], 2, 2, ⟨"gpt-4o", 1/2, "semantic"⟩⟩,
                ⟨"sC", "two", [], 3, 3, ⟨"gpt-4o", 1/2, "keyword"⟩⟩])).1 = true ∧
    (getSessions ((importSessions
      (some (exportData (storeOf [⟨"sA", "solo", [], 1, 1, ⟨"gpt-4o", 1/2, "hybrid"⟩⟩])))
      (storeOf [⟨"sB", "one", [], 2, 2, ⟨"gpt-4o", 1/2, "semantic"⟩⟩,
                ⟨"sC", "two", [], 3, 3, ⟨"gpt-4o", 1/2, "keyword"⟩⟩])).2)).length = 1 := by
  have h := C5_export_import_roundtrip [⟨"sA", "solo", [], 1, 1, ⟨"gpt-4o", 1/2, "hybrid"⟩⟩]
    (storeOf [⟨"sB", "one", [], 2, 2, ⟨"gpt-4o", 1/2, "semantic"⟩⟩,
              ⟨"sC", "two", [], 3, 3, ⟨"gpt-4o", 1/2, "keyword"⟩⟩])
    (by intro s hs; simp at hs; simp [hs])
  exact ⟨h.1, h.2.2⟩

/-- An import payload that passes shape validation while violating
`updatedAt >= createdAt` (`createdAt` 100, `updatedAt` 50). -/
def C4payload : Json :=
  .arr [.obj [("id", .str "s1"), ("name", .str "t"), ("messages", .arr []),
    ("createdAt", .num 100), ("updatedAt", .num 50),
    ("settings", .obj [("model", .str "gpt-4o"), ("temperature", .num (1/2)),
      ("search_type", .str "hybrid")])]]

/-- Claim C4, counterexample: `importSessions` (one of the operations the
claim ranges over) accepts the payload above, and the stored collection
afterwards holds a session whose `updatedAt` (50) is strictly below its
`createdAt` (100), so the invariant does not survive every operation. -/
theorem C4_counterexample :
    (importSessions (some C4payload) none).1 = true ∧
    getProp ((getSessions ((importSessions (some C4payload) none).2)).headD .undefined)
      "createdAt" = .date (some 100) ∧
    getProp ((getSessions ((importSessions (some C4payload) none).2)).headD .undefined)
      "updatedAt" = .date (some 50) ∧
    (50 : Int) < 100 := by
  refine ⟨?_, ?_, ?_, by norm_num⟩ <;>
    simp [importSessions, C4payload, jsonToJsValue, jsonToJsValueList, jsonToJsValueFields,
      isValidSession, jsTruthy, getProp, getField, searchTypeAllowed, saveSessions,
      stringify, stringifyList, stringifyFields, getSessions, getSessionsE, decodeSessions,
      transformSessionList, transformSession, transformMsgList, spreadFields, upsertField,
      dateFromValue]

/-- Claim C4, amended: after `createSession`, `updateSessionName`,
`addMessage` and `updateSessionSettings` — with the clock not behind any
stored `createdAt` — every stored session satisfies
`updatedAt >= createdAt`; rename and settings updates leave every message
sequence unchanged, and `addMessage` changes the collection only by
appending one message to the target session.  `importSessions`, by
contrast, validates shape only and can replace the collection with records
violating the invariant (see the counterexample). -/
theorem C4_invariant_under_mutators (l : List MSession) (now : Nat) (rand : List Char)
    (hInv : ∀ s ∈ l, s.createdAt ≤ s.updatedAt)
    (hclock : ∀ s ∈ l, s.createdAt ≤ (now : Int)) :
    (∀ c : CreateCall, (∀ s ∈ mCreate c l, s.createdAt ≤ s.updatedAt) ∧
      (createSession c.name c.settings.toJs c.nowMs c.rand (storeOf l)).2 =
        storeOf (mCreate c l)) ∧
    (∀ sid name l', mRename sid name now l = some l' →
      updateSessionName sid name now (storeOf l) = (true, storeOf l') ∧
      (∀ s ∈ l', s.createdAt ≤ s.updatedAt) ∧
      l'.map MSession.messages = l.map MSession.messages) ∧
    (∀ sid role content meta l',
      mAddMsg sid (mkMessage role content meta now rand) now l = some l' →
      addMessage sid (.obj (msgInFields role content meta)) now rand (storeOf l) =
        .ok (some (mkMessage role content meta now rand).toJs, storeOf l') ∧
      (∀ s ∈ l', s.createdAt ≤ s.updatedAt) ∧
      (∃ l₁ s l₂, l = l₁ ++ s :: l₂ ∧
        l' = l₁ ++ { s with
          messages := s.messages ++ [mkMessage role content meta now rand],
          updatedAt := (now : Int) } :: l₂)) ∧
    (∀ sid (p : MPatch) l', mUpdateSettings sid p now l = some l' →
      updateSessionSettings sid p.toJs now (storeOf l) = (true, storeOf l') ∧
      (∀ s ∈ l', s.createdAt ≤ s.updatedAt) ∧
      l'.map MSession.messages = l.map MSession.messages) := by
  refine ⟨?_, ?_, ?_, ?_⟩
  · intro c
    refine ⟨?_, createSession_storeOf c l⟩
    intro s hs
    have hs' : s ∈ mkSession c :: l := List.take_subset 50 _ hs
    rcases List.mem_cons.mp hs' with h | h
    · subst h; simp [mkSession]
    · exact hInv s h
  · intro sid name l' hm
    obtain ⟨l₁, s, l₂, hl, hpre, hps, hl'⟩ :=
      mUpdateFirst_some_decomp _ _ l l' hm
    refine ⟨?_, ?_, ?_⟩
    · rw [updateSessionName_storeOf]
      simp only [mRename] at hm ⊢
      rw [hm]
    · intro x hx
      rw [hl'] at hx
      rcases List.mem_append.mp hx with hx | hx
      · exact hInv x (by rw [hl]; exact List.mem_append_left _ hx)
      · rcases List.mem_cons.mp hx with hx | hx
        · subst hx
          have hsl : s ∈ l := by rw [hl]; simp
          simpa using hclock s hsl
        · exact hInv x (by rw [hl]; simp [hx])
    · rw [hl', hl]; simp
  · intro sid role content meta l' hm
    obtain ⟨l₁, s, l₂, hl, hpre, hps, hl'⟩ :=
      mUpdateFirst_some_decomp _ _ l l' hm
    refine ⟨?_, ?_, ?_⟩
    · rw [addMessage_storeOf]
      simp only [mAddMsg] at hm ⊢
      rw [hm]
    · intro x hx
      rw [hl'] at hx
      rcases List.mem_append.mp hx with hx | hx
      · exact hInv x (by rw [hl]; exact List.mem_append_left _ hx)
      · rcases List.mem_cons.mp hx with hx | hx
        · subst hx
          have hsl : s ∈ l := by rw [hl]; simp
          simpa using hclock s hsl
        · exact hInv x (by rw [hl]; simp [hx])
    · exact ⟨l₁, s, l₂, hl, hl'⟩
  · intro sid p l' hm
    obtain ⟨l₁, s, l₂, hl, hpre, hps, hl'⟩ :=
      mUpdateFirst_some_decomp _ _ l l' hm
    refine ⟨?_, ?_, ?_⟩
    · rw [updateSessionSettings_storeOf]
      simp only [mUpdateSettings] at hm ⊢
      rw [hm]
    · intro x hx
      rw [hl'] at hx
      rcases List.mem_append.mp hx with hx | hx
      · exact hInv x (by rw [hl]; exact List.mem_append_left _ hx)
      · rcases List.mem_cons.mp hx with hx | hx
        · subst hx
          have hsl : s ∈ l := by rw [hl]; simp
          simpa using hclock s hsl
        · exact hInv x (by rw [hl]; simp [hx])
    · rw [hl', hl]; simp

theorem C4_invariant_under_mutators_witness :
    updateSessionName "sA" "renamed" 9
        (storeOf [⟨"sA", "x", [], 3, 4, ⟨"gpt-4o", 1/2, "hybrid"⟩⟩]) =
      (true, storeOf [⟨"sA", "renamed", [], 3, 9, ⟨"gpt-4o", 1/2, "hybrid"⟩⟩]) ∧
    (∀ s ∈ [(⟨"sA", "renamed", [], 3, 9, ⟨"gpt-4o", 1/2, "hybrid"⟩⟩ : MSession)],
      s.createdAt ≤ s.updatedAt) := by
  have h := (C4_invariant_under_mutators
    [⟨"sA", "x", [], 3, 4, ⟨"gpt-4o", 1/2, "hybrid"⟩⟩] 9 []
    (by intro s hs; simp at hs; simp [hs])
    (by intro s hs; simp at hs; simp [hs])).2.1
    "sA" "renamed" [⟨"sA", "renamed", [], 3, 9, ⟨"gpt-4o", 1/2, "hybrid"⟩⟩]
    (by simp [mRename, mUpdateFirst])
  exact ⟨h.1, h.2.1⟩

/-! ## Properties of `generateId` -/

theorem toBase36Aux_eq_digits : ∀ (fuel n : Nat), n ≤ fuel →
    toBase36Aux fuel n = (Nat.digits 36 n).map digitChar36
  | 0, 0, _ => by simp [toBase36Aux]
  | 0, n + 1, h => absurd h (by omega)
  | fuel + 1, 0, _ => by simp [toBase36Aux]
  | fuel + 1, n + 1, h => by
    have hdiv : (n + 1) / 36 ≤ fuel := by
      have := Nat.div_lt_self (Nat.succ_pos n) (by norm_num : 1 < 36)
      omega
    rw [show toBase36Aux (fuel + 1) (n + 1) =
      digitChar36 ((n + 1) % 36) :: toBase36Aux fuel ((n + 1) / 36) from rfl]
    rw [toBase36Aux_eq_digits fuel ((n + 1) / 36) hdiv,
      Nat.digits_def' (by norm_num : 1 < 36) (Nat.succ_pos n)]
    simp

theorem digitChar36_inj_aux : ∀ a < 36, ∀ b < 36, digitChar36 a = digitChar36 b → a = b := by
  decide

theorem digitChar36_inj {a b : Nat} (ha : a < 36) (hb : b < 36)
    (h : digitChar36 a = digitChar36 b) : a = b :=
  digitChar36_inj_aux a ha b hb h

theorem map_digitChar36_inj : ∀ (xs ys : List Nat), (∀ d ∈ xs, d < 36) →
    (∀ d ∈ ys, d < 36) → xs.map digitChar36 = ys.map digitChar36 → xs = ys
  | [], [], _, _, _ => rfl
  | [], _ :: _, _, _, h => by simp at h
  | _ :: _, [], _, _, h => by simp at h
  | x :: xs, y :: ys, hx, hy, h => by
    simp only [List.map_cons, List.cons.injEq] at h
    have hxy := digitChar36_inj (hx x (by simp)) (hy y (by simp)) h.1
    have hrest := map_digitChar36_inj xs ys (fun d hd => hx d (by simp [hd]))
      (fun d hd => hy d (by simp [hd])) h.2
    rw [hxy, hrest]

/-- A nonzero number never prints as the single digit `0`. -/
theorem digits_map_ne_zero_digit {b : Nat} (hb : b ≠ 0)
    (h : (Nat.digits 36 b).map digitChar36 = ['0']) : False := by
  have hlen : (Nat.digits 36 b).length = 1 := by
    have := congrArg List.length h
    simpa using this
  obtain ⟨d, hd⟩ := List.length_eq_one.mp hlen
  rw [hd] at h
  simp at h
  have hd36 : d < 36 := Nat.digits_lt_base (by norm_num) (by rw [hd]; exact List.mem_singleton_self d)
  have hd0 : d = 0 := digitChar36_inj hd36 (by norm_num) (by rw [h]; rfl)
  have hofd := Nat.ofDigits_digits 36 b
  rw [hd, hd0] at hofd
  simp [Nat.ofDigits] at hofd
  exact hb hofd.symm

/-- Base-36 printing of a natural number is injective. -/
theorem toBase36_inj {a b : Nat} (h : toBase36 a = toBase36 b) : a = b := by
  by_cases ha : a = 0 <;> by_cases hb : b = 0
  · omega
  · exfalso
    rw [toBase36, toBase36, if_pos ha, if_neg hb,
      toBase36Aux_eq_digits b b (le_refl b)] at h
    refine digits_map_ne_zero_digit hb ?_
    have := congrArg List.reverse h
    simpa using this.symm
  · exfalso
    rw [toBase36, toBase36, if_neg ha, if_pos hb,
      toBase36Aux_eq_digits a a (le_refl a)] at h
    refine digits_map_ne_zero_digit ha ?_
    have := congrArg List.reverse h
    simpa using this
  · rw [toBase36, toBase36, if_neg ha, if_neg hb,
      toBase36Aux_eq_digits a a (le_refl a), toBase36Aux_eq_digits b b (le_refl b)] at h
    have hmaps := List.reverse_injective h
    have hdig := map_digitChar36_inj (Nat.digits 36 a) (Nat.digits 36 b)
      (fun d hd => Nat.digits_lt_base (by norm_num) hd)
      (fun d hd => Nat.digits_lt_base (by norm_num) hd) hmaps
    have := congrArg (Nat.ofDigits 36) hdig
    have hres := this
    rw [Nat.ofDigits_digits, Nat.ofDigits_digits] at hres
    exact_mod_cast hres

/-- Claim C9, counterexample: two distinct `generateId` call environments
produce the same id.  A clock reading of 54 ms prints as `1i` in base 36,
colliding with a clock reading of 1 ms (`1`) joined to the random suffix
`i` (the base-36 fraction digits of a `Math.random()` draw of 0.5, whose
`toString(36)` is `0.i`); a draw of 0 contributes the empty suffix. -/
theorem C9_counterexample :
    generateId 1 ['i'] = generateId 54 [] ∧ ¬(1 = 54 ∧ (['i'] : List Char) = []) := by
  decide

/-- Claim C9, amended: generated ids are not guaranteed unique across
distinct calls (see the counterexample: the flat concatenation of the
base-36 clock and the random suffix is ambiguous); they do differ whenever
the two calls share a clock reading but draw different random suffixes, or
share the random suffix at different clock readings. -/
theorem C9_generateId_partial_injective (t₁ t₂ : Nat) (r₁ r₂ : List Char) :
    (t₁ = t₂ → r₁ ≠ r₂ → generateId t₁ r₁ ≠ generateId t₂ r₂) ∧
    (r₁ = r₂ → t₁ ≠ t₂ → generateId t₁ r₁ ≠ generateId t₂ r₂) := by
  constructor
  · intro ht hr hgen
    subst ht
    rw [generateId, generateId] at hgen
    exact hr (List.append_cancel_left (congrArg String.data hgen))
  · intro hr ht hgen
    subst hr
    rw [generateId, generateId] at hgen
    exact ht (toBase36_inj (List.append_cancel_right (congrArg String.data hgen)))

theorem C9_generateId_partial_injective_witness :
    generateId 5 ['a'] ≠ generateId 5 ['b'] ∧ generateId 3 ['a'] ≠ generateId 7 ['a'] :=
  ⟨(C9_generateId_partial_injective 5 5 ['a'] ['b']).1 rfl (by decide),
   (C9_generateId_partial_injective 3 7 ['a'] ['a']).2 rfl (by decide)⟩
